import Mathlib

/-!
# Verification of the ai-ir ingestion / categorization / QA pipeline

Shallow embedding of the Python sources of the `ai-ir` repository:

* `document_processor.py` — `DocumentProcessor._create_chunks` and
  `DocumentProcessor._split_large_text` (markdown chunking),
* `main.py` — `categorize_with_keywords` (LEAP keyword fallback classifier),
* `supabase_utils.py` — `SupabaseManager.store_document`,
  `SupabaseManager.search_similar_chunks`, `SupabaseManager.get_document_images`,
* `qa_agent.py` — `QAAgent.answer_question`.

Python strings are modelled as Lean `String` (Python `len` counts code points,
matching `String.length`); `str.strip()` is modelled over the six ASCII
whitespace characters Python strips (the texts involved never contain the
rarer Unicode space characters).  External services (Supabase tables, the RPC
similarity search, the Gemini generation/embedding endpoints, `json.loads`)
enter as explicit oracle parameters, so theorems quantify over every possible
behaviour of those collaborators.
-/

namespace AiIr

/-- The six ASCII characters matched by Python's `\s` / stripped by
`str.strip()`: space, tab, newline, carriage return, vertical tab, form feed. -/
def isPyWs (c : Char) : Bool :=
  c = ' ' || c = '\t' || c = '\n' || c = '\r' || c = '\x0b' || c = '\x0c'

/-- Python `str.strip()` on a character list: drop whitespace from both ends. -/
def pyStripChars (l : List Char) : List Char :=
  ((l.dropWhile isPyWs).reverse.dropWhile isPyWs).reverse

/-- Python `str.strip()`. -/
def pyStrip (s : String) : String :=
  ⟨pyStripChars s.data⟩

/-- Python `str.startswith`. -/
def pyStartsWith (s pre : String) : Bool :=
  pre.data.isPrefixOf s.data

/-- Substring test on character lists: does `pat` occur contiguously in the
second argument? -/
def isSubstring (pat : List Char) : List Char → Bool
  | [] => pat.isEmpty
  | c :: t => pat.isPrefixOf (c :: t) || isSubstring pat t

/-- Python `pat in s` (substring containment). -/
def pyContains (s pat : String) : Bool :=
  isSubstring pat.data s.data

/-- Python `str.lower()` (the headings involved are ASCII, where
`Char.toLower` agrees with Python). -/
def pyLower (s : String) : String :=
  ⟨s.data.map Char.toLower⟩

/-- Python `str.split(sep)` on character lists: left-to-right,
non-overlapping, empty pieces kept.  `current` holds the piece being built
(reversed); `fuel` only bounds the recursion and `pySplit` supplies enough
for the whole input. -/
def pySplitAux (sep : List Char) : Nat → List Char → List Char →
    List (List Char)
  | _, [], current => [current.reverse]
  | 0, l, current => [current.reverse ++ l]
  | fuel + 1, c :: t, current =>
      if sep.isPrefixOf (c :: t) then
        current.reverse :: pySplitAux sep fuel ((c :: t).drop sep.length) []
      else
        pySplitAux sep fuel t (c :: current)

/-- Python `s.split(sep)` for a non-empty separator. -/
def pySplit (s sep : String) : List String :=
  (pySplitAux sep.data (s.data.length + 1) s.data []).map fun l => ⟨l⟩

/-- Python `str.replace(old, new)` on character lists: left-to-right,
non-overlapping, for a non-empty `old`. -/
def pyReplaceAux (old new : List Char) : Nat → List Char → List Char
  | _, [] => []
  | 0, l => l
  | fuel + 1, c :: t =>
      if old.isPrefixOf (c :: t) then
        new ++ pyReplaceAux old new fuel ((c :: t).drop old.length)
      else
        c :: pyReplaceAux old new fuel t

/-- Python `s.replace(old, new)` for a non-empty `old`. -/
def pyReplace (s old new : String) : String :=
  ⟨pyReplaceAux old.data new.data (s.data.length + 1) s.data⟩

/-! ## `DocumentProcessor._split_large_text` (document_processor.py 145–188) -/

/-- A text chunk as produced by `DocumentProcessor`: the dict
`{'text': ..., 'heading': ...}`. -/
structure Chunk where
  text : String
  heading : String
  deriving DecidableEq, Repr

/-- The paragraph-accumulation loop of `_split_large_text`
(document_processor.py 170–186), including the final
`if current_chunk.strip(): chunks.append(...)`.  `current` is
`current_chunk`, `acc` the chunk list built so far. -/
def splitParas (chunkSize : Nat) (heading : String) :
    List String → String → List Chunk → List Chunk
  | [], current, acc =>
      if pyStrip current ≠ "" then acc ++ [⟨pyStrip current, heading⟩] else acc
  | para :: rest, current, acc =>
      if current.length + para.length > chunkSize ∧ current ≠ "" then
        splitParas chunkSize heading rest para (acc ++ [⟨pyStrip current, heading⟩])
      else
        splitParas chunkSize heading rest
          (if current ≠ "" then current ++ "\n\n" ++ para else para) acc

/-- `DocumentProcessor._split_large_text(text, heading, chunk_size)`. -/
def splitLargeText (text heading : String) (chunkSize : Nat) : List Chunk :=
  if pyStrip text = "" then []
  else if (pyStrip text).length ≤ chunkSize then [⟨pyStrip text, heading⟩]
  else splitParas chunkSize heading (pySplit (pyStrip text) "\n\n") "" []

/-! ## `DocumentProcessor._create_chunks` (document_processor.py 99–143)

The Python code splits the text with
`re.split(r'(^#{2,3}\s+.+$)', text, flags=re.MULTILINE)`.  The pattern is
embedded literally: a match starts at a line start, consumes two or three
`#` (greedily preferring three, but a fourth `#` rules both out because a
whitespace character must follow), then `\s+` (greedy, may cross newlines),
then `.+` (one or more non-newline characters), ending at a line end.  When
`\s+` would swallow the whole remainder, the regex engine backtracks to the
longest whitespace prefix whose successor character is not a newline. -/

/-- Match `\s+.+$` at the start of `cs`, returning the consumed characters
and the remainder (which starts with `'\n'` or is empty). -/
def matchTail (cs : List Char) : Option (List Char × List Char) :=
  let w := cs.takeWhile isPyWs
  let a := cs.dropWhile isPyWs
  if w.isEmpty then none
  else
    match a with
    | _ :: _ =>
        -- `\s+` takes the whole whitespace run; `.+` the rest of the line.
        some (w ++ a.takeWhile (· ≠ '\n'), a.dropWhile (· ≠ '\n'))
    | [] =>
        -- whitespace runs to the end of the text: backtrack `\s+` to the
        -- largest length `t ≥ 1` whose next character can start `.+`.
        match ((w.enum.filter fun q => decide (1 ≤ q.1) && q.2 != '\n').map
            Prod.fst).getLast? with
        | some t =>
            some (w.take t ++ (w.drop t).takeWhile (· ≠ '\n'),
              (w.drop t).dropWhile (· ≠ '\n'))
        | none => none

/-- Match `#{2,3}\s+.+$` at the start of `cs` (a line start), returning the
matched heading and the remainder. -/
def matchHeading : List Char → Option (List Char × List Char)
  | '#' :: '#' :: '#' :: c :: rest =>
      -- greedy `#{2,3}` takes three `#`; if no whitespace follows, the
      -- two-`#` alternative would face the third `#`, so the match fails.
      if isPyWs c then
        (matchTail (c :: rest)).map fun p => ('#' :: '#' :: '#' :: p.1, p.2)
      else none
  | '#' :: '#' :: c :: rest =>
      if isPyWs c then
        (matchTail (c :: rest)).map fun p => ('#' :: '#' :: p.1, p.2)
      else none
  | _ => none

/-- One piece of bookkeeping for `re.split`: scan from a line start,
collecting the text between matches (`pending`) and the alternating
piece/heading list (`acc`), exactly as `re.split` with one capture group
returns `[piece, match, piece, match, ..., piece]`.  `fuel` only bounds the
recursion; `createChunks` supplies enough for the whole text. -/
def splitHeadingsAux : Nat → List Char → List Char → List (List Char) →
    List (List Char)
  | 0, cs, pending, acc => acc ++ [pending ++ cs]
  | fuel + 1, cs, pending, acc =>
      match matchHeading cs with
      | some (m, r) =>
          match r with
          | '\n' :: t => splitHeadingsAux fuel t ['\n'] (acc ++ [pending, m])
          | _ => acc ++ [pending, m, r]  -- a match always ends at a line end,
                                         -- so here `r` is empty
      | none =>
          match cs.dropWhile (· ≠ '\n') with
          | '\n' :: t =>
              splitHeadingsAux fuel t
                (pending ++ cs.takeWhile (· ≠ '\n') ++ ['\n']) acc
          | _ => acc ++ [pending ++ cs]  -- no later line start: final piece

/-- `re.split(r'(^#{2,3}\s+.+$)', text, flags=re.MULTILINE)`. -/
def splitHeadings (text : String) : List String :=
  (splitHeadingsAux (text.data.length + 1) text.data [] []).map fun l => ⟨l⟩

/-- `re.match(r'^#{2,3}\s+', section)`: the in-loop heading test of
`_create_chunks` (document_processor.py 120). -/
def reMatchHashWs (s : String) : Bool :=
  match s.data with
  | '#' :: '#' :: '#' :: c :: _ => isPyWs c
  | '#' :: '#' :: c :: _ => isPyWs c
  | _ => false

/-- The body of the `for section in sections` loop of `_create_chunks`
(document_processor.py 118–135); state is `(current_heading, current_text,
chunks)`. -/
def createChunksStep (chunkSize : Nat) (st : String × String × List Chunk)
    (sect : String) : String × String × List Chunk :=
  if reMatchHashWs sect then
    (pyStrip (pyReplace sect "#" ""), "",
      st.2.2 ++ (if pyStrip st.2.1 ≠ "" then
        splitLargeText st.2.1 st.1 chunkSize else []))
  else
    (st.1, st.2.1 ++ sect, st.2.2)

/-- `DocumentProcessor._create_chunks(text, chunk_size)`. -/
def createChunks (text : String) (chunkSize : Nat := 1000) : List Chunk :=
  let sections := splitHeadings text
  let st := sections.foldl (createChunksStep chunkSize) ("", "", [])
  st.2.2 ++ (if pyStrip st.2.1 ≠ "" then
    splitLargeText st.2.1 st.1 chunkSize else [])

/-! ## `categorize_with_keywords` (main.py 374–429) -/

/-- The four LEAP phases. -/
inductive Phase
  | L
  | E
  | A
  | P
  deriving DecidableEq, Repr

/-- `leap_keywords['L']`. -/
def leapKeywordsL : List String :=
  ["locate", "location", "geographic", "site", "area", "region", "facility",
    "biome"]

/-- `leap_keywords['E']`. -/
def leapKeywordsE : List String :=
  ["evaluate", "evaluation", "dependency", "dependencies", "impact",
    "materiality", "ecosystem"]

/-- `leap_keywords['A']`. -/
def leapKeywordsA : List String :=
  ["assess", "assessment", "risk", "opportunity", "scenario",
    "financial impact"]

/-- `leap_keywords['P']`. -/
def leapKeywordsP : List String :=
  ["prepare", "strategy", "target", "indicator", "governance", "metric",
    "action plan"]

/-- `any(keyword in section_lower for keyword in keywords)`. -/
def anyKeyword (kws : List String) (sLower : String) : Bool :=
  kws.any fun k => pyContains sLower k

/-- The `for phase, keywords in leap_keywords.items(): ... break` loop:
dict insertion order gives the fixed priority L, E, A, P; the `break`
stops at the first phase whose keyword list matches. -/
def sectionPhase (sLower : String) : Option Phase :=
  if anyKeyword leapKeywordsL sLower then some .L
  else if anyKeyword leapKeywordsE sLower then some .E
  else if anyKeyword leapKeywordsA sLower then some .A
  else if anyKeyword leapKeywordsP sLower then some .P
  else none

/-- The `leap_content` dict: one list of categorized blocks per phase. -/
structure LeapContent where
  L : List String
  E : List String
  A : List String
  P : List String
  deriving DecidableEq, Repr

/-- The empty `leap_content`. -/
def LeapContent.empty : LeapContent := ⟨[], [], [], []⟩

/-- Append a categorized block `f"### {current_section}\n\n{content_text}"`
to the list of the first matching phase (main.py 402–411 / 422–427). -/
def saveSection (heading : String) (contentLines : List String)
    (acc : LeapContent) : LeapContent :=
  let contentText := String.intercalate "\n" contentLines
  let entry := "### " ++ heading ++ "\n\n" ++ contentText
  match sectionPhase (pyLower heading) with
  | some .L => { acc with L := acc.L ++ [entry] }
  | some .E => { acc with E := acc.E ++ [entry] }
  | some .A => { acc with A := acc.A ++ [entry] }
  | some .P => { acc with P := acc.P ++ [entry] }
  | none => acc

/-- `if current_section and current_content:` — both values must be truthy
(the section is not `None` or empty, the content list non-empty) for the
section to be saved. -/
def maybeSave (sec : Option String) (cont : List String) (acc : LeapContent) :
    LeapContent :=
  match sec with
  | some s => if s ≠ "" ∧ cont ≠ [] then saveSection s cont acc else acc
  | none => acc

/-- `line.startswith('##') or line.startswith('#')` (main.py 399). -/
def phaseIsHeadingLine (line : String) : Bool :=
  pyStartsWith line "##" || pyStartsWith line "#"

/-- The body of the `for line in lines` loop of `categorize_with_keywords`
(main.py 397–418); state is `(current_section, current_content,
leap_content)`. -/
def keywordStep (st : Option String × List String × LeapContent)
    (line : String) : Option String × List String × LeapContent :=
  if phaseIsHeadingLine line then
    (some (pyStrip (pyReplace line "#" "")), [], maybeSave st.1 st.2.1 st.2.2)
  else if pyStrip line ≠ "" then
    (st.1, st.2.1 ++ [line], st.2.2)
  else
    st

/-- `categorize_with_keywords(full_text)`. -/
def categorizeWithKeywords (fullText : String) : LeapContent :=
  let lines := pySplit fullText "\n"
  let st := lines.foldl keywordStep (none, [], LeapContent.empty)
  maybeSave st.1 st.2.1 st.2.2

/-! ## MD5 (`hashlib.md5(filename.encode()).hexdigest()`)

`store_document` keys documents by the MD5 hex digest of the filename.  The
algorithm (RFC 1321) is embedded over `Nat`, with 32-bit wrap-around made
explicit by `% 2^32`. -/

/-- UTF-8 encoding of one code point (Python `str.encode()`). -/
def utf8EncodeCharBytes (c : Char) : List Nat :=
  let n := c.toNat
  if n < 0x80 then [n]
  else if n < 0x800 then
    [0xC0 ||| (n >>> 6), 0x80 ||| (n &&& 0x3F)]
  else if n < 0x10000 then
    [0xE0 ||| (n >>> 12), 0x80 ||| ((n >>> 6) &&& 0x3F), 0x80 ||| (n &&& 0x3F)]
  else
    [0xF0 ||| (n >>> 18), 0x80 ||| ((n >>> 12) &&& 0x3F),
      0x80 ||| ((n >>> 6) &&& 0x3F), 0x80 ||| (n &&& 0x3F)]

/-- `filename.encode()`: the UTF-8 bytes of a string. -/
def utf8Bytes (s : String) : List Nat :=
  s.data.flatMap utf8EncodeCharBytes

/-- MD5 per-round shift amounts. -/
def md5S : List Nat :=
  [7, 12, 17, 22, 7, 12, 17, 22, 7, 12, 17, 22, 7, 12, 17, 22,
   5, 9, 14, 20, 5, 9, 14, 20, 5, 9, 14, 20, 5, 9, 14, 20,
   4, 11, 16, 23, 4, 11, 16, 23, 4, 11, 16, 23, 4, 11, 16, 23,
   6, 10, 15, 21, 6, 10, 15, 21, 6, 10, 15, 21, 6, 10, 15, 21]

/-- MD5 sine-derived constants. -/
def md5K : List Nat :=
  [0xd76aa478, 0xe8c7b756, 0x242070db, 0xc1bdceee,
   0xf57c0faf, 0x4787c62a, 0xa8304613, 0xfd469501,
   0x698098d8, 0x8b44f7af, 0xffff5bb1, 0x895cd7be,
   0x6b901122, 0xfd987193, 0xa679438e, 0x49b40821,
   0xf61e2562, 0xc040b340, 0x265e5a51, 0xe9b6c7aa,
   0xd62f105d, 0x02441453, 0xd8a1e681, 0xe7d3fbc8,
   0x21e1cde6, 0xc33707d6, 0xf4d50d87, 0x455a14ed,
   0xa9e3e905, 0xfcefa3f8, 0x676f02d9, 0x8d2a4c8a,
   0xfffa3942, 0x8771f681, 0x6d9d6122, 0xfde5380c,
   0xa4beea44, 0x4bdecfa9, 0xf6bb4b60, 0xbebfbc70,
   0x289b7ec6, 0xeaa127fa, 0xd4ef3085, 0x04881d05,
   0xd9d4d039, 0xe6db99e5, 0x1fa27cf8, 0xc4ac5665,
   0xf4292244, 0x432aff97, 0xab9423a7, 0xfc93a039,
   0x655b59c3, 0x8f0ccc92, 0xffeff47d, 0x85845dd1,
   0x6fa87e4f, 0xfe2ce6e0, 0xa3014314, 0x4e0811a1,
   0xf7537e82, 0xbd3af235, 0x2ad7d2bb, 0xeb86d391]

/-- 32-bit addition. -/
def add32 (x y : Nat) : Nat := (x + y) % 2 ^ 32

/-- 32-bit complement. -/
def not32 (x : Nat) : Nat := 0xFFFFFFFF ^^^ x

/-- 32-bit left rotation. -/
def rotl32 (x s : Nat) : Nat := ((x <<< s) ||| (x >>> (32 - s))) % 2 ^ 32

/-- MD5 round function (F, G, H, I by round quarter). -/
def md5F (i b c d : Nat) : Nat :=
  if i < 16 then (b &&& c) ||| (not32 b &&& d)
  else if i < 32 then (d &&& b) ||| (not32 d &&& c)
  else if i < 48 then b ^^^ c ^^^ d
  else c ^^^ (b ||| not32 d)

/-- MD5 message-word index per round. -/
def md5G (i : Nat) : Nat :=
  if i < 16 then i
  else if i < 32 then (5 * i + 1) % 16
  else if i < 48 then (3 * i + 5) % 16
  else (7 * i) % 16

/-- Little-endian 32-bit word from four bytes. -/
def le32 (bs : List Nat) : Nat :=
  bs.getD 0 0 + 256 * bs.getD 1 0 + 65536 * bs.getD 2 0 +
    16777216 * bs.getD 3 0

/-- One MD5 operation. -/
def md5Round (M : Nat → Nat) (st : Nat × Nat × Nat × Nat) (i : Nat) :
    Nat × Nat × Nat × Nat :=
  let (a, b, c, d) := st
  let f := add32 (add32 (add32 a (md5F i b c d)) (md5K.getD i 0)) (M (md5G i))
  (d, add32 b (rotl32 f (md5S.getD i 0)), b, c)

/-- Process one 64-byte block. -/
def md5Block (st : Nat × Nat × Nat × Nat) (block : List Nat) :
    Nat × Nat × Nat × Nat :=
  let M := fun j => le32 ((block.drop (4 * j)).take 4)
  let (a, b, c, d) := (List.range 64).foldl (md5Round M) st
  (add32 st.1 a, add32 st.2.1 b, add32 st.2.2.1 c, add32 st.2.2.2 d)

/-- Split into 64-byte blocks (`fuel` bounds the recursion; callers supply
the list length, which suffices since every step consumes 64 bytes). -/
def chunksOf64 : Nat → List Nat → List (List Nat)
  | _, [] => []
  | 0, l => [l]
  | fuel + 1, l => l.take 64 :: chunksOf64 fuel (l.drop 64)

/-- MD5 padding: `0x80`, zeros to 56 mod 64, then the bit length as a
little-endian 64-bit value. -/
def md5Pad (msg : List Nat) : List Nat :=
  let len := msg.length
  let z := (119 - len % 64) % 64
  let bitLen := (len * 8) % 2 ^ 64
  msg ++ [0x80] ++ List.replicate z 0 ++
    ((List.range 8).map fun i => (bitLen >>> (8 * i)) &&& 0xFF)

/-- The four little-endian bytes of a 32-bit word. -/
def wordBytesLE (w : Nat) : List Nat :=
  (List.range 4).map fun i => (w >>> (8 * i)) &&& 0xFF

/-- Lower-case hex digit. -/
def hexDigit (n : Nat) : Char :=
  "0123456789abcdef".data.getD n '0'

/-- `hashlib.md5(s.encode()).hexdigest()`. -/
def md5Hex (s : String) : String :=
  let padded := md5Pad (utf8Bytes s)
  let st := (chunksOf64 padded.length padded).foldl md5Block
    (0x67452301, 0xefcdab89, 0x98badcfe, 0x10325476)
  ⟨(wordBytesLE st.1 ++ wordBytesLE st.2.1 ++ wordBytesLE st.2.2.1 ++
      wordBytesLE st.2.2.2).flatMap fun b =>
    [hexDigit (b >>> 4), hexDigit (b &&& 0xF)]⟩

/-! ## `SupabaseManager.store_document` (supabase_utils.py 54–137)

The three Supabase tables are modelled as row lists; `upsert(...,
on_conflict='doc_hash')` updates the existing row in place (keeping its id)
or inserts a fresh row.  Row ids are allocated by a counter; the embedding
endpoint is an oracle `embed`.  The happy path is modelled (a store-write
failure is propagated by the code and is not at issue in the claims). -/

/-- A row of the `documents` table. -/
structure DocRow where
  id : Nat
  filename : String
  docHash : String
  fullText : String
  chunkCount : Nat
  imageCount : Nat
  deriving DecidableEq, Repr

/-- A row of the `document_chunks` table (the embedding vector is an opaque
numeric payload; its element type is irrelevant to the claims). -/
structure ChunkRow where
  documentId : Nat
  chunkIndex : Nat
  text : String
  heading : String
  embedding : List Int
  deriving DecidableEq, Repr

/-- A row of the `document_images` table. -/
structure ImageRow where
  documentId : Nat
  imageIndex : Nat
  filename : String
  imageData : String
  caption : String
  context : String
  deriving DecidableEq, Repr

/-- An image dict as handed to `store_document`. -/
structure ImageInput where
  filename : String
  base64Data : String
  caption : String
  context : String
  deriving DecidableEq, Repr

/-- The persistent store. -/
structure IngestDB where
  documents : List DocRow
  chunks : List ChunkRow
  images : List ImageRow
  nextId : Nat
  deriving DecidableEq, Repr

/-- The empty store. -/
def IngestDB.empty : IngestDB := ⟨[], [], [], 0⟩

/-- The result dict returned by `store_document`. -/
structure StoreResult where
  documentId : Nat
  filename : String
  chunksStored : Nat
  imagesStored : Nat
  deriving DecidableEq, Repr

/-- `self.client.table('documents').upsert(doc_data, on_conflict='doc_hash')`:
update the row with the same `doc_hash` in place (id preserved), else insert
a new row.  Returns the resulting row. -/
def upsertDocument (db : IngestDB) (filename docHash fullText : String)
    (chunkCount imageCount : Nat) : DocRow × IngestDB :=
  match db.documents.find? (fun r => r.docHash == docHash) with
  | some r =>
      let r' : DocRow :=
        { r with
          filename := filename, fullText := fullText,
          chunkCount := chunkCount, imageCount := imageCount }
      (r', { db with
        documents := db.documents.map fun q =>
          if q.docHash == docHash then r' else q })
  | none =>
      let r' : DocRow :=
        ⟨db.nextId, filename, docHash, fullText, chunkCount, imageCount⟩
      (r', { db with
        documents := db.documents ++ [r'], nextId := db.nextId + 1 })

/-- `SupabaseManager.store_document(filename, full_text, chunks, images)`;
`embed` is `generate_embedding` applied per chunk text. -/
def storeDocument (embed : String → List Int) (db : IngestDB)
    (filename fullText : String) (chunks : List Chunk)
    (images : List ImageInput) : IngestDB × StoreResult :=
  let docHash := md5Hex filename
  let (row, db) :=
    upsertDocument db filename docHash fullText chunks.length images.length
  let chunkRows := chunks.enum.map fun p =>
    (⟨row.id, p.1, p.2.text, p.2.heading, embed p.2.text⟩ : ChunkRow)
  let imageRows := images.enum.map fun p =>
    (⟨row.id, p.1, p.2.filename, p.2.base64Data, p.2.caption,
      p.2.context⟩ : ImageRow)
  ({ db with
      chunks := db.chunks ++ chunkRows, images := db.images ++ imageRows },
    ⟨row.id, filename, chunks.length, images.length⟩)

/-! ## `SupabaseManager.search_similar_chunks` (supabase_utils.py 139–203)

`generate_embedding`, the `match_document_chunks` RPC and the per-document
image fetch are oracles; an `Except.error` outcome models a raised
exception at that call site. -/

/-- A row returned by the `match_document_chunks` RPC. -/
structure RawChunk where
  text : String
  heading : String
  similarity : Rat
  documentId : Nat
  filename : String
  deriving DecidableEq, Repr

/-- An enhanced search result (`enhanced_results` entry). -/
structure RetrievedChunk where
  text : String
  heading : String
  similarity : Rat
  documentId : Nat
  filename : String
  images : List ImageRow
  deriving DecidableEq, Repr

/-- `generate_embedding` (supabase_utils.py 40–52): its own `try/except`
returns `[]` when the embedding endpoint fails. -/
def generateEmbedding (outcome : Except String (List Int)) : List Int :=
  match outcome with
  | .ok v => v
  | .error _ => []

/-- `get_document_images` (supabase_utils.py 192–203): its own `try/except`
returns `[]` when the table read fails. -/
def getDocumentImages (imagesOutcome : Nat → Except String (List ImageRow))
    (documentId : Nat) : List ImageRow :=
  match imagesOutcome documentId with
  | .ok l => l
  | .error _ => []

/-- The `try` body of `search_similar_chunks`: embed the query, call the
RPC, enhance each row with its document's images.  An `error` is an
exception reaching the outer handler. -/
def searchSimilarChunksBody (embedOutcome : Except String (List Int))
    (rpc : List Int → Rat → Nat → Except String (List RawChunk))
    (imagesOutcome : Nat → Except String (List ImageRow))
    (lim : Nat) (threshold : Rat) : Except String (List RetrievedChunk) := do
  let queryEmbedding := generateEmbedding embedOutcome
  let rows ← rpc queryEmbedding threshold lim
  return rows.map fun c =>
    ⟨c.text, c.heading, c.similarity, c.documentId, c.filename,
      getDocumentImages imagesOutcome c.documentId⟩

/-- `SupabaseManager.search_similar_chunks(query, limit, threshold)`: the
outer `except` turns any exception into `[]`. -/
def searchSimilarChunks (embedOutcome : Except String (List Int))
    (rpc : List Int → Rat → Nat → Except String (List RawChunk))
    (imagesOutcome : Nat → Except String (List ImageRow))
    (lim : Nat := 5) (threshold : Rat := 7 / 10) : List RetrievedChunk :=
  match searchSimilarChunksBody embedOutcome rpc imagesOutcome lim threshold with
  | .ok l => l
  | .error _ => []

/-! ## `QAAgent.answer_question` (qa_agent.py 61–162)

The retrieval call, the two `generate_content` call sites and `json.loads`
are oracles.  `json.loads` is modelled as `String → Option PyJson`: `none` is
a raised parse error; a parsed JSON object is `PyJson.dict` restricted to the
three keys the code consults (with the value types the prompt demands);
every other JSON value (number, list, string, null) is `PyJson.nondict` —
calling `.get` on it raises `AttributeError` at qa_agent.py 153, which is
outside every `try` block. -/

/-- The result of `json.loads` as consumed by `answer_question`. -/
inductive PyJson
  | dict (answer : Option String) (sources : Option (List String))
      (confidence : Option String)
  | nondict
  deriving DecidableEq, Repr

/-- The answer dict returned by `answer_question`. -/
structure QAResponse where
  answer : String
  sources : List String
  images : List ImageRow
  confidence : String
  chunksUsed : Nat
  deriving DecidableEq, Repr

/-- The fixed no-information response (qa_agent.py 85–92). -/
def noInfoResponse : QAResponse :=
  ⟨"I don't have any information to answer that question. Please make sure documents have been uploaded and processed.",
    [], [], "low", 0⟩

/-- Code-fence stripping (qa_agent.py 115–119): cut the text between the
first fence markers. -/
def stripFences (t : String) : String :=
  if pyStartsWith t "```json" then
    pyStrip (((pySplit ((pySplit t "```json").getD 1 "") "```")).getD 0 "")
  else if pyStartsWith t "```" then
    pyStrip (((pySplit ((pySplit t "```").getD 1 "") "```")).getD 0 "")
  else t

/-- Steps 4–5 of `answer_question` (qa_agent.py 145–158): collect at most
two images per chunk and five in total, then read the three keys off
`result_data` with defaults.  On a non-dict `result_data` the `.get`
attribute access raises. -/
def finalizeAnswer (resultData : PyJson) (chunks : List RetrievedChunk) :
    Except String QAResponse :=
  let allImages := (chunks.flatMap fun c => c.images.take 2).take 5
  match resultData with
  | .dict a s c =>
      .ok ⟨a.getD "No answer generated", s.getD [], allImages,
        c.getD "medium", chunks.length⟩
  | .nondict =>
      .error "AttributeError: object has no attribute 'get'"

/-- `QAAgent.answer_question(question, max_chunks)`.  `search` is the
retrieval call, `gen1`/`gen2` the outcomes of the first and second
`generate_content` call sites, `jsonLoads` the JSON parser.  Returns the
result (`error` = an exception escaping the method) paired with the number
of generation calls made. -/
def answerQuestion (search : String → Nat → List RetrievedChunk)
    (gen1 gen2 : Except String String)
    (jsonLoads : String → Option PyJson)
    (question : String) (maxChunks : Nat := 5) :
    Except String QAResponse × Nat :=
  let relevantChunks := search question maxChunks
  if relevantChunks.isEmpty then
    (.ok noInfoResponse, 0)
  else
    -- first generation call: strip, remove fences, parse JSON; any failure
    -- (exception from the model or from `json.loads`) enters the fallback
    let firstTry : Option PyJson :=
      match gen1 with
      | .error _ => none
      | .ok t => jsonLoads (stripFences (pyStrip t))
    match firstTry with
    | some resultData => (finalizeAnswer resultData relevantChunks, 1)
    | none =>
        match gen2 with
        | .ok t2 =>
            (finalizeAnswer
              (.dict (some t2) (some (relevantChunks.map (·.heading)))
                (some "medium"))
              relevantChunks, 2)
        | .error e2 =>
            (.ok ⟨"Error generating answer: " ++ e2, [], [], "low", 0⟩, 2)

/-! ## Supporting lemmas about Python-style stripping -/

theorem mem_dropWhile_of_not_pred {p : Char → Bool} {c : Char}
    {l : List Char} (hc : c ∈ l) (hp : p c = false) : c ∈ l.dropWhile p := by
  have := List.takeWhile_append_dropWhile p l
  rcases (List.mem_append.1 (this ▸ hc)) with h | h
  · exact absurd (List.mem_takeWhile_imp h) (by simp [hp])
  · exact h

/-- Non-whitespace characters survive stripping. -/
theorem mem_pyStripChars {c : Char} {l : List Char} (hc : c ∈ l)
    (hw : isPyWs c = false) : c ∈ pyStripChars l := by
  unfold pyStripChars
  rw [List.mem_reverse]
  exact mem_dropWhile_of_not_pred
    (by rw [List.mem_reverse]; exact mem_dropWhile_of_not_pred hc hw) hw

/-- `s.strip()` is empty exactly when every character of `s` is whitespace. -/
theorem pyStrip_eq_empty_iff (s : String) :
    pyStrip s = "" ↔ ∀ c ∈ s.data, isPyWs c = true := by
  rw [String.ext_iff]
  show pyStripChars s.data = [] ↔ _
  constructor
  · intro h c hc
    by_contra hcw
    have := mem_pyStripChars hc (by simpa using hcw)
    simp [h] at this
  · intro h
    unfold pyStripChars
    rw [List.reverse_eq_nil_iff, List.dropWhile_eq_nil_iff]
    intro x hx
    rw [List.mem_reverse] at hx
    exact h x ((List.dropWhile_suffix isPyWs).subset hx)

/-- Stripping never lengthens a string. -/
theorem pyStrip_length_le (s : String) : (pyStrip s).length ≤ s.length := by
  show (pyStripChars s.data).length ≤ s.data.length
  unfold pyStripChars
  rw [List.length_reverse]
  calc ((s.data.dropWhile isPyWs).reverse.dropWhile isPyWs).length
      ≤ (s.data.dropWhile isPyWs).reverse.length :=
        (List.dropWhile_suffix isPyWs).length_le
    _ = (s.data.dropWhile isPyWs).length := List.length_reverse _
    _ ≤ s.data.length := (List.dropWhile_suffix isPyWs).length_le

/-- A whitespace-only line is never a heading line of
`categorize_with_keywords`. -/
theorem phaseIsHeadingLine_of_blank {b : String} (h : pyStrip b = "") :
    phaseIsHeadingLine b = false := by
  rcases hb : b.data with _ | ⟨c, t⟩
  · simp [phaseIsHeadingLine, pyStartsWith, hb, List.isPrefixOf]
  · have hc : isPyWs c = true :=
      (pyStrip_eq_empty_iff b).1 h c (by simp [hb])
    have hcn : c ≠ '#' := by
      rintro rfl
      simp [isPyWs] at hc
    simp only [phaseIsHeadingLine, pyStartsWith, hb]
    show (['#', '#'].isPrefixOf (c :: t) || ['#'].isPrefixOf (c :: t)) = false
    simp [List.isPrefixOf, Ne.symm hcn]

/-! ## Theorems -/

set_option maxRecDepth 10000

/-- **C1.** Re-ingesting a document with the same filename twice does *not*
leave only the second call's chunk rows: `store_document` upserts the
document row (one row remains, keyed by the filename hash) but only ever
*inserts* into `document_chunks`, so the first run's chunk rows survive.
Evaluated at a failing input: first call stores chunks `c1`, `c2`; second
call stores `c3`; afterwards the single document row reports
`chunk_count = 1` while three chunk rows (including both from the first
run) are associated with that document — the code contradicts its own
`chunk_count` bookkeeping. -/
theorem store_document_reingest_appends_chunks :
    (let s1 := storeDocument (fun _ => []) IngestDB.empty "report.pdf"
      "text one" [⟨"c1", "h"⟩, ⟨"c2", "h"⟩] []
    let s2 := storeDocument (fun _ => []) s1.1 "report.pdf"
      "text two" [⟨"c3", "h"⟩] []
    s2.1.documents.length = 1 ∧
    s2.1.documents.map (·.chunkCount) = [1] ∧
    (s2.1.chunks.filter fun c => c.documentId == s2.2.documentId).length = 3 ∧
    s2.1.chunks.map (·.text) = ["c1", "c2", "c3"]) := by
  decide

/-- **C9.** Document identity is derived from the filename alone: both calls
to `store_document` with the same filename (and arbitrary, possibly
different, texts, chunks and images) key the upsert by `md5Hex filename`,
so after the two calls exactly one document row remains — the one produced
by the second call, under the same id the first call allocated. -/
theorem doc_identity_filename_only (embed : String → List Int)
    (fn ft₁ ft₂ : String) (ch₁ ch₂ : List Chunk)
    (im₁ im₂ : List ImageInput) :
    (let s1 := storeDocument embed IngestDB.empty fn ft₁ ch₁ im₁
    let s2 := storeDocument embed s1.1 fn ft₂ ch₂ im₂
    s1.1.documents.map (·.docHash) = [md5Hex fn] ∧
    s2.1.documents = [⟨0, fn, md5Hex fn, ft₂, ch₂.length, im₂.length⟩] ∧
    s2.2.documentId = s1.2.documentId) := by
  simp [storeDocument, upsertDocument, IngestDB.empty, List.find?]

/-- **C4.** The keyword fallback classifier assigns each section to at most
one phase, by first match of the lower-cased heading against the four
keyword lists in the fixed priority Locate, Evaluate, Assess, Prepare: the
section lands in `E` only if no `L` keyword matched, in `A` only if no `L`
or `E` keyword matched, and in `P` only if none of the other three matched.
In particular an English document with sections `## Location` and
`## Strategy and Targets` classifies the first to Locate and the second to
Prepare. -/
theorem keyword_priority_first_match :
    (∀ s : String,
      (sectionPhase s = some Phase.L ↔ anyKeyword leapKeywordsL s = true) ∧
      (sectionPhase s = some Phase.E ↔
        anyKeyword leapKeywordsL s = false ∧
        anyKeyword leapKeywordsE s = true) ∧
      (sectionPhase s = some Phase.A ↔
        anyKeyword leapKeywordsL s = false ∧
        anyKeyword leapKeywordsE s = false ∧
        anyKeyword leapKeywordsA s = true) ∧
      (sectionPhase s = some Phase.P ↔
        anyKeyword leapKeywordsL s = false ∧
        anyKeyword leapKeywordsE s = false ∧
        anyKeyword leapKeywordsA s = false ∧
        anyKeyword leapKeywordsP s = true)) ∧
    categorizeWithKeywords
        "## Location\nWe operate sites in Kyushu.\n\n## Strategy and Targets\nWe set emission targets." =
      ⟨["### Location\n\nWe operate sites in Kyushu."], [], [],
        ["### Strategy and Targets\n\nWe set emission targets."]⟩ := by
  refine ⟨fun s => ?_, by decide⟩
  cases hL : anyKeyword leapKeywordsL s <;>
    cases hE : anyKeyword leapKeywordsE s <;>
      cases hA : anyKeyword leapKeywordsA s <;>
        cases hP : anyKeyword leapKeywordsP s <;>
          simp [sectionPhase, hL, hE, hA, hP]

/-- **C6.** On empty retrieval, `answer_question` returns the fixed
no-information response — confidence `low`, empty sources and images,
`chunks_used = 0` — and performs zero generation calls. -/
theorem empty_retrieval_short_circuit
    (search : String → Nat → List RetrievedChunk)
    (gen1 gen2 : Except String String) (jsonLoads : String → Option PyJson)
    (question : String) (maxChunks : Nat)
    (h : search question maxChunks = []) :
    answerQuestion search gen1 gen2 jsonLoads question maxChunks =
      (Except.ok noInfoResponse, 0) ∧
    noInfoResponse.confidence = "low" ∧ noInfoResponse.sources = [] ∧
    noInfoResponse.images = [] ∧ noInfoResponse.chunksUsed = 0 := by
  refine ⟨?_, rfl, rfl, rfl, rfl⟩
  simp [answerQuestion, h]

/-- Witness for `empty_retrieval_short_circuit` at a concrete empty store. -/
theorem empty_retrieval_short_circuit_witness :
    answerQuestion (fun _ _ => []) (.ok "yes") (.ok "yes")
        (fun _ => some PyJson.nondict) "Where are the sites?" 5 =
      (Except.ok noInfoResponse, 0) :=
  (empty_retrieval_short_circuit (fun _ _ => []) (.ok "yes") (.ok "yes")
    (fun _ => some PyJson.nondict) "Where are the sites?" 5 rfl).1

/-- Folding whitespace-only lines leaves the classifier state (with empty
current content) unchanged. -/
theorem foldl_keywordStep_blanks (blanks : List String) :
    (∀ b ∈ blanks, pyStrip b = "") →
    ∀ (s : Option String) (a : LeapContent),
    blanks.foldl keywordStep (s, [], a) = (s, [], a) := by
  induction blanks with
  | nil => intro _ s a; rfl
  | cons b bs ih =>
      intro hb s a
      have h1 := hb b (List.mem_cons_self b bs)
      have h2 := phaseIsHeadingLine_of_blank h1
      have hkw : keywordStep (s, [], a) b = (s, [], a) := by
        simp [keywordStep, h2, h1]
      rw [List.foldl_cons, hkw]
      exact ih (fun x hx => hb x (List.mem_cons_of_mem b hx)) s a

/-- Discharging an empty-content section saves nothing. -/
theorem maybeSave_nil (sec : Option String) (acc : LeapContent) :
    maybeSave sec [] acc = acc := by
  cases sec <;> simp [maybeSave]

/-- **C10.** A section whose heading line is immediately followed only by
blank lines up to the next heading (or the end of the text) contributes to
no phase list: from any classifier state, processing the heading, the blank
lines, and then either another heading or the end of input yields exactly
the accumulator obtained from saving the *previous* section — the blank
section itself is silently omitted. -/
theorem blank_section_omitted (sec : Option String) (cont : List String)
    (acc : LeapContent) (hline : String) (blanks : List String)
    (hline2 : String)
    (h1 : phaseIsHeadingLine hline = true)
    (hb : ∀ b ∈ blanks, pyStrip b = "")
    (h2 : phaseIsHeadingLine hline2 = true) :
    ((((hline :: blanks) ++ [hline2]).foldl keywordStep
        (sec, cont, acc)).2.2 = maybeSave sec cont acc) ∧
    ((let st := (hline :: blanks).foldl keywordStep (sec, cont, acc)
      maybeSave st.1 st.2.1 st.2.2) = maybeSave sec cont acc) := by
  have hstep : keywordStep (sec, cont, acc) hline =
      (some (pyStrip (pyReplace hline "#" "")), [], maybeSave sec cont acc) := by
    simp [keywordStep, h1]
  have hfold : List.foldl keywordStep (sec, cont, acc) (hline :: blanks) =
      (some (pyStrip (pyReplace hline "#" "")), [], maybeSave sec cont acc) := by
    rw [List.foldl_cons, hstep]
    exact foldl_keywordStep_blanks blanks hb _ _
  constructor
  · rw [List.foldl_append, hfold]
    simp [keywordStep, h2, maybeSave_nil]
  · simp only [hfold, maybeSave_nil]

/-- Witness for `blank_section_omitted`: a keyword-matching heading
(`## Location`) whose body is blank is omitted from all four lists. -/
theorem blank_section_omitted_witness :
    ((((("## Location" : String) :: ["", "   "]) ++ ["## Governance"]).foldl
        keywordStep (none, [], LeapContent.empty)).2.2 =
      maybeSave none [] LeapContent.empty) ∧
    ((let st := (("## Location" : String) :: ["", "   "]).foldl keywordStep
        (none, [], LeapContent.empty)
      maybeSave st.1 st.2.1 st.2.2) = maybeSave none [] LeapContent.empty) :=
  blank_section_omitted none [] LeapContent.empty "## Location" ["", "   "]
    "## Governance" (by decide) (by decide) (by decide)

/-- **C5 counterexample.** The claim restricts the phase-extraction
variant's boundary set to heading levels 1–2, making a `###` line body
text there; but `categorize_with_keywords` treats *any* line starting with
`#` as a boundary: on `"### Location\nwater"` the level-3 line opens a
section whose heading `Location` is categorized to Locate — under the
claim nothing would be categorized (no boundary, hence no section). -/
theorem heading_level_counterexample :
    phaseIsHeadingLine "### Location" = true ∧
    (categorizeWithKeywords "### Location\nwater").L =
      ["### Location\n\nwater"] := by
  decide

/-- **C5 amended.** In the phase-extraction variant a line is a heading
boundary exactly when it starts with `#` — any heading level (including 3
and beyond), no following space required.  In the document-processing
variant a heading match can only begin with exactly two or three `#`
immediately followed by a whitespace character. -/
theorem heading_boundary_characterization :
    (∀ line : String, phaseIsHeadingLine line = pyStartsWith line "#") ∧
    (∀ cs m r : List Char, matchHeading cs = some (m, r) →
      (∃ c t, cs = '#' :: '#' :: c :: t ∧ isPyWs c = true) ∨
      (∃ c t, cs = '#' :: '#' :: '#' :: c :: t ∧ isPyWs c = true)) := by
  constructor
  · intro line
    show (("##".data : List Char).isPrefixOf line.data ||
        ("#".data : List Char).isPrefixOf line.data) =
      ("#".data : List Char).isPrefixOf line.data
    cases hl : line.data with
    | nil => simp [List.isPrefixOf]
    | cons c t =>
        simp only [List.isPrefixOf]
        cases h : ('#' == c) <;> simp [List.isPrefixOf]
  · intro cs m r h
    rw [matchHeading.eq_def] at h
    split at h
    next x c rest =>
      split at h
      next hw => exact Or.inr ⟨c, rest, rfl, hw⟩
      next hw => simp at h
    next x c rest hno =>
      split at h
      next hw => exact Or.inl ⟨c, rest, rfl, hw⟩
      next hw => simp at h
    next => simp at h

/-- Witness for `heading_boundary_characterization`: a concrete level-3
line in the phase variant, and a concrete document-variant match. -/
theorem heading_boundary_characterization_witness :
    phaseIsHeadingLine "### Location" = pyStartsWith "### Location" "#" ∧
    ((∃ c t, "## ok".data = '#' :: '#' :: c :: t ∧ isPyWs c = true) ∨
      (∃ c t, "## ok".data = '#' :: '#' :: '#' :: c :: t ∧ isPyWs c = true)) :=
  ⟨heading_boundary_characterization.1 "### Location",
    heading_boundary_characterization.2 "## ok".data "## ok".data []
      (by decide)⟩

/-- Stripping a string twice is as good as stripping it once: a stripped
string that is non-empty still has a non-whitespace character. -/
theorem pyStrip_pyStrip_ne_empty {s : String} (h : pyStrip s ≠ "") :
    pyStrip (pyStrip s) ≠ "" := by
  intro hcon
  apply h
  rw [pyStrip_eq_empty_iff] at hcon ⊢
  intro c hc
  by_contra hw
  have hw' : isPyWs c = false := by simpa using hw
  exact absurd (hcon c (mem_pyStripChars hc hw')) (by simp [hw'])

/-- A string with a non-blank suffix strips to something non-empty. -/
theorem pyStrip_append_ne {a b : String} (h : pyStrip b ≠ "") :
    pyStrip (a ++ b) ≠ "" := by
  intro hcon
  apply h
  rw [pyStrip_eq_empty_iff] at hcon ⊢
  intro c hc
  exact hcon c (by
    show c ∈ a.data ++ b.data
    exact List.mem_append.2 (Or.inr hc))

/-- Invariant of the paragraph loop for **C2**: every emitted chunk is
within two characters of the target (the `"\n\n"` joiner the size check
ignores) or is a stripped paragraph of the ambient paragraph list `P`. -/
theorem splitParas_size_invariant (chunkSize : Nat) (heading : String)
    (P : List String) :
    ∀ (paras : List String) (current : String) (acc : List Chunk),
    (∀ p ∈ paras, p ∈ P) →
    (current = "" ∨ (∃ p ∈ P, current = p) ∨
      current.length ≤ chunkSize + 2) →
    (∀ c ∈ acc, c.text.length ≤ chunkSize + 2 ∨
      ∃ p ∈ P, c.text = pyStrip p) →
    ∀ c ∈ splitParas chunkSize heading paras current acc,
      c.text.length ≤ chunkSize + 2 ∨ ∃ p ∈ P, c.text = pyStrip p := by
  have emitted : ∀ (current : String),
      (current = "" ∨ (∃ p ∈ P, current = p) ∨
        current.length ≤ chunkSize + 2) →
      (pyStrip current).length ≤ chunkSize + 2 ∨
        ∃ p ∈ P, pyStrip current = pyStrip p := by
    intro current hcur
    rcases hcur with rfl | ⟨p, hp, hpe⟩ | hlen
    · exact Or.inl (by simp [pyStrip, pyStripChars])
    · exact Or.inr ⟨p, hp, by rw [hpe]⟩
    · exact Or.inl (le_trans (pyStrip_length_le current) hlen)
  intro paras
  induction paras with
  | nil =>
      intro current acc _ hcur hacc c hc
      unfold splitParas at hc
      split at hc
      · rcases List.mem_append.1 hc with h | h
        · exact hacc c h
        · rcases List.mem_singleton.1 h with rfl
          exact emitted current hcur
      · exact hacc c hc
  | cons para rest ih =>
      intro current acc hp hcur hacc c hc
      have hpP : para ∈ P := hp para (List.mem_cons_self para rest)
      have hrest : ∀ p ∈ rest, p ∈ P :=
        fun x hx => hp x (List.mem_cons_of_mem para hx)
      unfold splitParas at hc
      split at hc
      · -- flush: emit the stripped current chunk, start over from `para`
        refine ih para (acc ++ [⟨pyStrip current, heading⟩]) hrest
          (Or.inr (Or.inl ⟨para, hpP, rfl⟩)) ?_ c hc
        intro d hd
        rcases List.mem_append.1 hd with h | h
        · exact hacc d h
        · rcases List.mem_singleton.1 h with rfl
          exact emitted current hcur
      · -- accumulate: the joined text stays within `chunkSize + 2`
        next hneg =>
        refine ih
          (if current ≠ "" then current ++ "\n\n" ++ para else para) acc
          hrest ?_ hacc c hc
        by_cases hne : current ≠ ""
        · rw [if_pos hne]
          refine Or.inr (Or.inr ?_)
          have hle : current.length + para.length ≤ chunkSize := by
            rcases not_and_or.1 hneg with h | h
            · omega
            · exact absurd hne h
          rw [String.length_append, String.length_append]
          have : ("\n\n" : String).length = 2 := rfl
          omega
        · rw [if_neg hne]
          exact Or.inr (Or.inl ⟨para, hpP, rfl⟩)

/-- **C2 amended.** Every chunk `_split_large_text` emits either has length
at most `chunk_size + 2` — the greedy size check ignores the two-character
`"\n\n"` joiner, so multi-paragraph chunks can overshoot by exactly that
much — or equals a single (whitespace-stripped) paragraph of its source
text. -/
theorem splitLargeText_size_bound (text heading : String) (chunkSize : Nat) :
    ∀ c ∈ splitLargeText text heading chunkSize,
      c.text.length ≤ chunkSize + 2 ∨
      ∃ p ∈ pySplit (pyStrip text) "\n\n", c.text = pyStrip p := by
  intro c hc
  unfold splitLargeText at hc
  split at hc
  · simp at hc
  · split at hc
    · next h1 =>
        rcases List.mem_singleton.1 hc with rfl
        exact Or.inl (le_trans h1 (Nat.le_add_right _ 2))
    · exact splitParas_size_invariant chunkSize heading
        (pySplit (pyStrip text) "\n\n") (pySplit (pyStrip text) "\n\n") "" []
        (fun p hp => hp) (Or.inl rfl) (by simp) c hc

/-- Witness for `splitLargeText_size_bound` at the chunk produced from
`"aaaa\n\nbbbbbb"` with target 10. -/
theorem splitLargeText_size_bound_witness :
    (⟨"aaaa\n\nbbbbbb", "h"⟩ : Chunk).text.length ≤ 10 + 2 ∨
      ∃ p ∈ pySplit (pyStrip "aaaa\n\nbbbbbb") "\n\n",
        (⟨"aaaa\n\nbbbbbb", "h"⟩ : Chunk).text = pyStrip p :=
  splitLargeText_size_bound "aaaa\n\nbbbbbb" "h" 10
    ⟨"aaaa\n\nbbbbbb", "h"⟩ (by decide)

/-- **C2 counterexample.** On the section `"aaaa\n\nbbbbbb"` with target
size 10, the chunker emits the single chunk `"aaaa\n\nbbbbbb"` of length
12 > 10 which is composed of *two* paragraphs (it equals no single
double-newline-delimited segment of the source): the size check
`len(current_chunk) + len(para) > chunk_size` ignores the two joiner
characters, refuting `len ≤ target ∨ single paragraph` as stated. -/
theorem chunk_size_bound_counterexample :
    ∃ c ∈ splitLargeText "aaaa\n\nbbbbbb" "h" 10,
      10 < c.text.length ∧
      ∀ p ∈ pySplit (pyStrip "aaaa\n\nbbbbbb") "\n\n", c.text ≠ p := by
  decide

/-- Invariant of the paragraph loop for **C3**: if every ambient paragraph
is non-blank, every emitted chunk strips to something non-empty. -/
theorem splitParas_no_empty (chunkSize : Nat) (heading : String)
    (P : List String) (hP : ∀ p ∈ P, pyStrip p ≠ "") :
    ∀ (paras : List String) (current : String) (acc : List Chunk),
    (∀ p ∈ paras, p ∈ P) →
    (current = "" ∨ pyStrip current ≠ "") →
    (∀ c ∈ acc, pyStrip c.text ≠ "") →
    ∀ c ∈ splitParas chunkSize heading paras current acc,
      pyStrip c.text ≠ "" := by
  intro paras
  induction paras with
  | nil =>
      intro current acc _ hcur hacc c hc
      unfold splitParas at hc
      split at hc
      · next hne =>
        rcases List.mem_append.1 hc with h | h
        · exact hacc c h
        · rcases List.mem_singleton.1 h with rfl
          exact pyStrip_pyStrip_ne_empty hne
      · exact hacc c hc
  | cons para rest ih =>
      intro current acc hp hcur hacc c hc
      have hpP : pyStrip para ≠ "" :=
        hP para (hp para (List.mem_cons_self para rest))
      have hrest : ∀ p ∈ rest, p ∈ P :=
        fun x hx => hp x (List.mem_cons_of_mem para hx)
      unfold splitParas at hc
      split at hc
      · next hcond =>
        refine ih para (acc ++ [⟨pyStrip current, heading⟩]) hrest
          (Or.inr hpP) ?_ c hc
        intro d hd
        rcases List.mem_append.1 hd with h | h
        · exact hacc d h
        · rcases List.mem_singleton.1 h with rfl
          rcases hcur with rfl | hne
          · exact absurd rfl hcond.2
          · exact pyStrip_pyStrip_ne_empty hne
      · refine ih
          (if current ≠ "" then current ++ "\n\n" ++ para else para) acc
          hrest ?_ hacc c hc
        by_cases hne : current ≠ ""
        · rw [if_pos hne]
          exact Or.inr (pyStrip_append_ne hpP)
        · rw [if_neg hne]
          exact Or.inr hpP

/-- **C3 amended.** Provided no paragraph of the (stripped) input text is
whitespace-only, every chunk `_split_large_text` emits is non-empty after
stripping.  (When a whitespace-only paragraph occurs between two large
paragraphs, the mid-loop flush emits it as an empty chunk — see the
counterexample.) -/
theorem splitLargeText_no_empty_chunks (text heading : String)
    (chunkSize : Nat)
    (hp : ∀ p ∈ pySplit (pyStrip text) "\n\n", pyStrip p ≠ "") :
    ∀ c ∈ splitLargeText text heading chunkSize, pyStrip c.text ≠ "" := by
  intro c hc
  unfold splitLargeText at hc
  split at hc
  next h0 => simp at hc
  next h0 =>
    split at hc
    · next h1 =>
        rcases List.mem_singleton.1 hc with rfl
        exact pyStrip_pyStrip_ne_empty h0
    · exact splitParas_no_empty chunkSize heading
        (pySplit (pyStrip text) "\n\n") hp (pySplit (pyStrip text) "\n\n")
        "" [] (fun p hq => hq) (Or.inl rfl) (by simp) c hc

/-- Witness for `splitLargeText_no_empty_chunks` at a concrete split. -/
theorem splitLargeText_no_empty_chunks_witness :
    pyStrip (⟨"aaaa", "h"⟩ : Chunk).text ≠ "" :=
  splitLargeText_no_empty_chunks "aaaa\n\nbbbb" "h" 3 (by decide)
    ⟨"aaaa", "h"⟩ (by decide)

/-- **C3 counterexample.** `_create_chunks("aaaa\n\n \n\nbbbb", 3)` emits
the chunk list `["aaaa", "", "bbbb"]`: the whitespace-only middle
paragraph is flushed by the mid-loop `chunks.append({'text':
current_chunk.strip(), ...})`, which — unlike the initial and final
emissions — is not guarded by a non-blank check, so an empty chunk is
emitted. -/
theorem chunker_empty_chunk_counterexample :
    createChunks "aaaa\n\n \n\nbbbb" 3 =
      [⟨"aaaa", ""⟩, ⟨"", ""⟩, ⟨"bbbb", ""⟩] ∧
    ∃ c ∈ createChunks "aaaa\n\n \n\nbbbb" 3, pyStrip c.text = "" := by
  decide

/-- The first `try` block of `answer_question` fails — the model call
raised, or its (stripped, fence-stripped) text is not parseable JSON. -/
def firstTryFails (gen1 : Except String String)
    (jsonLoads : String → Option PyJson) : Prop :=
  match gen1 with
  | .error _ => True
  | .ok t => jsonLoads (stripFences (pyStrip t)) = none

/-- **C7 counterexample.** The claim says `answer_question` *never* raises,
for every behaviour of the model calls including malformed JSON output.
But when the first model response parses to valid JSON that is not an
object (here the reply `"3"`), `result_data.get('answer', ...)` at
qa_agent.py 153 — outside every `try` — raises `AttributeError`, which
escapes the method. -/
theorem nondict_json_raises_counterexample :
    ∃ e, (answerQuestion
        (fun _ _ => [⟨"text", "head", 1, 0, "f.pdf", []⟩])
        (.ok "3") (.ok "fallback") (fun _ => some PyJson.nondict)
        "q" 5).1 = .error e :=
  ⟨_, rfl⟩

/-- **C7 amended.** Provided every successfully parsed first response is a
JSON *object* (the non-object case raises, see the counterexample),
`answer_question` always returns a structurally valid response object:
if the first call's outcome fails to parse and the fallback call succeeds
with text `t2`, the response is `t2` with sources synthesized from the
retrieved chunks' headings and confidence `medium`; if the fallback call
also fails, the response's answer is an explicit error message, with
confidence `low`. -/
theorem answer_question_total_fallbacks
    (search : String → Nat → List RetrievedChunk)
    (gen1 gen2 : Except String String) (jsonLoads : String → Option PyJson)
    (question : String) (maxChunks : Nat)
    (hnd : ∀ s, jsonLoads s ≠ some PyJson.nondict) :
    (∃ resp,
      (answerQuestion search gen1 gen2 jsonLoads question maxChunks).1 =
        .ok resp) ∧
    (∀ t2, search question maxChunks ≠ [] →
      firstTryFails gen1 jsonLoads → gen2 = .ok t2 →
      (answerQuestion search gen1 gen2 jsonLoads question maxChunks).1 =
        .ok ⟨t2, (search question maxChunks).map (·.heading),
          ((search question maxChunks).flatMap fun c =>
            c.images.take 2).take 5,
          "medium", (search question maxChunks).length⟩) ∧
    (∀ e2, search question maxChunks ≠ [] →
      firstTryFails gen1 jsonLoads → gen2 = .error e2 →
      (answerQuestion search gen1 gen2 jsonLoads question maxChunks).1 =
        .ok ⟨"Error generating answer: " ++ e2, [], [], "low", 0⟩) := by
  unfold answerQuestion
  by_cases hemp : (search question maxChunks).isEmpty
  · rw [if_pos hemp]
    refine ⟨⟨noInfoResponse, rfl⟩, ?_, ?_⟩ <;>
      · intro x hne _ _
        exact absurd (List.isEmpty_iff.1 hemp) hne
  · rw [if_neg hemp]
    rcases hg1 : gen1 with e1 | t1
    · -- the first model call raised: the fallback decides everything
      rcases hg2 : gen2 with e2 | t2
      · exact ⟨⟨_, rfl⟩, fun x _ _ hx => by simp at hx,
          fun x _ _ hx => by injection hx with hx; subst hx; rfl⟩
      · exact ⟨⟨_, rfl⟩, fun x _ _ hx => by injection hx with hx; subst hx; rfl,
          fun x _ _ hx => by simp at hx⟩
    · -- the first model call returned `t1`
      rcases hj : jsonLoads (stripFences (pyStrip t1)) with _ | j
      · rcases hg2 : gen2 with e2 | t2
        · refine ⟨⟨⟨"Error generating answer: " ++ e2, [], [], "low", 0⟩, ?_⟩,
            fun x _ _ hx => by simp at hx, fun x _ _ hx => ?_⟩
          · simp [hj]
          · injection hx with hx
            subst hx
            simp [hj]
        · refine ⟨⟨⟨t2, (search question maxChunks).map (·.heading),
              ((search question maxChunks).flatMap fun c =>
                c.images.take 2).take 5,
              "medium", (search question maxChunks).length⟩, ?_⟩,
            fun x _ _ hx => ?_, fun x _ _ hx => by simp at hx⟩
          · simp [hj, finalizeAnswer]
          · injection hx with hx
            subst hx
            simp [hj, finalizeAnswer]
      · -- the first response parsed: by `hnd` it is an object
        rcases j with ⟨a, s, cf⟩ | _
        · refine ⟨⟨⟨a.getD "No answer generated", s.getD [],
              ((search question maxChunks).flatMap fun c =>
                c.images.take 2).take 5,
              cf.getD "medium", (search question maxChunks).length⟩, ?_⟩,
            fun x _ hft => ?_, fun x _ hft => ?_⟩
          · simp [hj, finalizeAnswer]
          · simp [firstTryFails, hj] at hft
          · simp [firstTryFails, hj] at hft
        · exact absurd hj (hnd _)

/-- Witness for `answer_question_total_fallbacks`: one retrieved chunk,
an unparseable first response, and a failing fallback call yield the
explicit low-confidence error answer. -/
theorem answer_question_total_fallbacks_witness :
    (answerQuestion (fun _ _ => [⟨"text", "head", 1, 0, "f.pdf", []⟩])
        (.ok "not json") (.error "quota") (fun _ => none) "q" 5).1 =
      .ok ⟨"Error generating answer: " ++ "quota", [], [], "low", 0⟩ :=
  (answer_question_total_fallbacks
      (fun _ _ => [⟨"text", "head", 1, 0, "f.pdf", []⟩])
      (.ok "not json") (.error "quota") (fun _ => none) "q" 5
      (fun _ => by simp)).2.2 "quota" (by simp) rfl rfl

/-- **C8 counterexample.** The claim says `search_similar_chunks` returns
an empty list when *any* underlying call fails, the image fetch included.
But `get_document_images` swallows its own failure (returning `[]`), so a
failing image fetch leaves the successful similarity rows in place: the
search returns a non-empty list. -/
theorem image_fetch_failure_nonempty_counterexample :
    searchSimilarChunks (.ok [1])
        (fun _ _ _ => .ok [⟨"t", "h", 1, 0, "f.pdf"⟩])
        (fun _ => .error "images table down") =
      [⟨"t", "h", 1, 0, "f.pdf", []⟩] := by
  rfl

/-- **C8 amended.** `search_similar_chunks` is total (the outer `except`
catches everything) and returns `[]` when the similarity RPC raises or
returns no rows — in particular on an empty store and when nothing clears
the threshold; a non-empty result arises only from a successful RPC with
rows, each enhanced with its document's images (an image-fetch failure
degrades that chunk's image list to `[]` without emptying the result; a
query-embedding failure is swallowed and the RPC is called with the empty
vector). -/
theorem search_similar_chunks_empty_cases
    (embedOutcome : Except String (List Int))
    (rpc : List Int → Rat → Nat → Except String (List RawChunk))
    (imagesOutcome : Nat → Except String (List ImageRow))
    (lim : Nat) (threshold : Rat) :
    (∀ e, rpc (generateEmbedding embedOutcome) threshold lim = .error e →
      searchSimilarChunks embedOutcome rpc imagesOutcome lim threshold
        = []) ∧
    (rpc (generateEmbedding embedOutcome) threshold lim = .ok [] →
      searchSimilarChunks embedOutcome rpc imagesOutcome lim threshold
        = []) ∧
    (searchSimilarChunks embedOutcome rpc imagesOutcome lim threshold ≠ [] →
      ∃ rows, rpc (generateEmbedding embedOutcome) threshold lim = .ok rows ∧
        rows ≠ [] ∧
        searchSimilarChunks embedOutcome rpc imagesOutcome lim threshold =
          rows.map fun c =>
            ⟨c.text, c.heading, c.similarity, c.documentId, c.filename,
              getDocumentImages imagesOutcome c.documentId⟩) := by
  rcases hr : rpc (generateEmbedding embedOutcome) threshold lim with e | rows
  · refine ⟨fun x _ => ?_, fun hx => ?_, fun hne => ?_⟩
    · simp [searchSimilarChunks, searchSimilarChunksBody, hr]
    · simp [hr] at hx
    · exact absurd (by simp [searchSimilarChunks, searchSimilarChunksBody, hr])
        hne
  · have hval : searchSimilarChunks embedOutcome rpc imagesOutcome
        lim threshold = rows.map fun c =>
          ⟨c.text, c.heading, c.similarity, c.documentId, c.filename,
            getDocumentImages imagesOutcome c.documentId⟩ := by
      simp [searchSimilarChunks, searchSimilarChunksBody, hr]
    refine ⟨fun x hx => by simp [hr] at hx, fun hx => ?_, fun hne => ?_⟩
    · rw [hval]
      injection hx with hx
      simp [hx]
    · refine ⟨rows, rfl, ?_, hval⟩
      intro hnil
      exact hne (by simp [hval, hnil])

/-- Witness for `search_similar_chunks_empty_cases`: a raising RPC and an
empty-rows RPC both give an empty search result. -/
theorem search_similar_chunks_empty_cases_witness :
    searchSimilarChunks (.ok [1]) (fun _ _ _ => .error "rpc down")
        (fun _ => .ok []) 5 (7 / 10) = [] ∧
    searchSimilarChunks (.ok [1]) (fun _ _ _ => .ok [])
        (fun _ => .ok []) 5 (7 / 10) = [] :=
  ⟨(search_similar_chunks_empty_cases (.ok [1])
      (fun _ _ _ => .error "rpc down") (fun _ => .ok []) 5 (7 / 10)).1
      "rpc down" rfl,
    (search_similar_chunks_empty_cases (.ok [1]) (fun _ _ _ => .ok [])
      (fun _ => .ok []) 5 (7 / 10)).2.1 rfl⟩

end AiIr
